import Mathlib

/-!
Shallow embedding of `freelance-job-tracker.py` (class `FreelanceJobTracker`).

Modelling conventions:
* pandas `DataFrame` rows become a `List Job` kept in insertion order;
  a missing (`NaN`/`None`) optional value becomes `Option.none`.
* Python `float` values carrying money/hours are modelled as `Rat`
  (none of the verified behaviour depends on IEEE rounding).
* Timestamps (`datetime` / `pd.Timestamp`) are modelled as `Int` seconds
  since the Unix epoch; `pd.Timedelta(days = d)` is `d * 86400`.
* Values arriving from the CLI (strings, numbers, `None`, booleans) are a
  `PyVal`; Python coercions `float(v)`, `pd.to_datetime(v)`, `bool(v)` and
  Python truthiness are modelled explicitly below.
* An operation that lets a Python exception escape (`ValueError` from
  `float`, parse failure from `pd.to_datetime`) is modelled by returning
  `some TrackerError.validation` next to the state it leaves behind; the
  "not found" message paths return `some TrackerError.notFound`.
* The CSV file written by `to_csv` / read by `read_csv` is modelled as a
  list of typed rows (`List Cell`), one cell per column of the fixed schema.
-/

/-- A value as handed to the tracker by the Python caller. -/
inductive PyVal where
  | vNone
  | vStr (s : String)
  | vNum (q : Rat)
  | vBool (b : Bool)
deriving DecidableEq, Repr

/-- Python truthiness, as used by `if hours:`, `if upcoming_deadlines:`
    and `bool(value)`. -/
def truthy : PyVal → Bool
  | .vNone => false
  | .vStr s => !(s == "")
  | .vNum q => !(decide (q = 0))
  | .vBool b => b

/-- Digit accumulator over an all-digit character list; `none` when a
    non-digit appears. -/
def natOfDigitsAux : List Char → Nat → Option Nat
  | [], acc => some acc
  | c :: rest, acc =>
    if c.isDigit then natOfDigitsAux rest (acc * 10 + (c.toNat - 48)) else none

/-- `natOfDigitsAux` requiring at least one digit, as `int("...")` does. -/
def natOfDigits : List Char → Option Nat
  | [] => none
  | cs => natOfDigitsAux cs 0

/-- Value of a digit list that is already known to be all digits. -/
def digitsToNat (cs : List Char) : Nat :=
  cs.foldl (fun a c => a * 10 + (c.toNat - 48)) 0

/-- Unsigned decimal literal: digits, optionally followed by a dot and more
    digits, with digits required on at least one side of the dot (Python
    accepts `"5."` and `".5"` but rejects `"."` and `""`).  Exponent and
    `inf`/`nan` forms, which never occur in the tracker's flows, are not
    modelled. -/
def parseUnsignedFloat (cs : List Char) : Option Rat :=
  let p := cs.span (·.isDigit)
  match p.2 with
  | [] => (natOfDigits p.1).map (fun n => (n : Rat))
  | '.' :: fracCs =>
    if fracCs.all (·.isDigit) && !(p.1.isEmpty && fracCs.isEmpty) then
      some ((digitsToNat p.1 : Rat) + (digitsToNat fracCs : Rat) / ((10 : Rat) ^ fracCs.length))
    else none
  | _ => none

/-- Python's `float(s)` on a string: optional surrounding whitespace,
    optional sign, decimal literal.  `none` models the `ValueError`. -/
def parseFloatStr (s : String) : Option Rat :=
  let cs := ((s.toList.dropWhile (·.isWhitespace)).reverse.dropWhile (·.isWhitespace)).reverse
  match cs with
  | '-' :: rest => (parseUnsignedFloat rest).map Neg.neg
  | '+' :: rest => parseUnsignedFloat rest
  | _ => parseUnsignedFloat cs

/-- Python's `float(v)`: `none` models the raised exception
    (`ValueError` for a bad string, `TypeError` for `None`). -/
def pyFloat : PyVal → Option Rat
  | .vStr s => parseFloatStr s
  | .vNum q => some q
  | .vBool b => some (if b then 1 else 0)
  | .vNone => none

/-- Days from the civil epoch 1970-01-01 for a Gregorian date
    (standard era-based civil-calendar arithmetic). -/
def daysFromCivil (y0 m d : Int) : Int :=
  let y := if m ≤ 2 then y0 - 1 else y0
  let era := (if 0 ≤ y then y else y - 399).tdiv 400
  let yoe := y - era * 400
  let doy := (153 * (m + (if 2 < m then -3 else 9)) + 2).tdiv 5 + d - 1
  let doe := yoe * 365 + yoe.tdiv 4 - yoe.tdiv 100 + doy
  era * 146097 + doe - 719468

/-- Civil date (year, month, day) of a day count from 1970-01-01. -/
def civilFromDays (z0 : Int) : Int × Int × Int :=
  let z := z0 + 719468
  let era := (if 0 ≤ z then z else z - 146096).tdiv 146097
  let doe := z - era * 146097
  let yoe := (doe - doe.tdiv 1460 + doe.tdiv 36524 - doe.tdiv 146096).tdiv 365
  let y := yoe + era * 400
  let doy := doe - (365 * yoe + yoe.tdiv 4 - yoe.tdiv 100)
  let mp := (5 * doy + 2).tdiv 153
  let d := doy - (153 * mp + 2).tdiv 5 + 1
  let m := mp + (if mp < 10 then 3 else -9)
  (y + (if m ≤ 2 then 1 else 0), m, d)

/-- Split a character list on the `-` separator (for `YYYY-MM-DD`). -/
def splitDashAux : List Char → List Char → List (List Char)
  | [], acc => [acc.reverse]
  | c :: rest, acc =>
    if c = '-' then acc.reverse :: splitDashAux rest []
    else splitDashAux rest (c :: acc)

/-- `pd.to_datetime` on the `YYYY-MM-DD` strings the CLI supplies: parses
    the three dash-separated numeric fields and yields midnight of that
    date, in epoch seconds.  `none` models the parse error.  (Pandas also
    accepts other formats, none of which reach the tracker from its CLI;
    day-of-month validity is checked coarsely.) -/
def parseDateStr (s : String) : Option Int :=
  match splitDashAux s.toList [] with
  | [ys, ms, ds] =>
    match natOfDigits ys, natOfDigits ms, natOfDigits ds with
    | some y, some m, some d =>
      if 1 ≤ m ∧ m ≤ 12 ∧ 1 ≤ d ∧ d ≤ 31 then
        some (daysFromCivil (y : Int) (m : Int) (d : Int) * 86400)
      else none
    | _, _, _ => none
  | _ => none

/-- `pd.to_datetime(value)` as used in `add_job` / `edit_job`, where the
    value is a CLI-supplied date string. -/
def pyDate : PyVal → Option Int
  | .vStr s => parseDateStr s
  | _ => none

/-- Calendar-month key of a timestamp: `year * 12 + (month - 1)`.
    This is the order-faithful image of `dt.to_period('M')`. -/
def monthOf (t : Int) : Int :=
  let c := civilFromDays (t.fdiv 86400)
  c.1 * 12 + (c.2.1 - 1)

/-- The string a Python value shows as when assigned raw into a text
    column (only `.vStr` occurs on those columns in the tracker's flows). -/
def PyVal.asString : PyVal → String
  | .vStr s => s
  | .vNum q => toString q.num ++ "/" ++ toString q.den
  | .vBool b => if b then "True" else "False"
  | .vNone => "None"

/-- One row of the tracker's DataFrame: the fixed column set built by
    `load_data` / `add_job`. -/
structure Job where
  client_name : String
  project_name : String
  rate : Rat
  paid : Bool
  deadline : Int
  date_added : Int
  hours : Option Rat
  notes : Option String
deriving DecidableEq, Repr

/-- The column names of the DataFrame (`load_data`'s empty-frame schema). -/
def columns : List String :=
  ["client_name", "project_name", "rate", "paid", "deadline", "date_added", "hours", "notes"]

/-- Errors surfaced by the tracker's operations: a raised
    `ValueError`-style coercion failure, or a printed "not found". -/
inductive TrackerError where
  | validation
  | notFound
deriving DecidableEq, Repr

/-- One typed CSV cell as written by `to_csv` and re-read by `read_csv`
    (an absent optional value serializes as an empty cell). -/
inductive Cell where
  | empty
  | str (s : String)
  | num (q : Rat)
  | boolean (b : Bool)
  | timestamp (t : Int)
deriving DecidableEq, Repr

/-- The field `to_csv` writes for a string value: an empty string becomes
    an empty field, indistinguishable from an absent value. -/
def encodeStr (s : String) : Cell :=
  if s = "" then Cell.empty else Cell.str s

/-- The field `to_csv` writes for an optional string (`None`/NaN becomes
    the empty field, `na_rep` default). -/
def encodeOptStr : Option String → Cell
  | some s => encodeStr s
  | none => Cell.empty

/-- Serialization of one job into the row of its CSV cells, in the fixed
    column order.  Text values are written as their literal text; the
    collapse of NA-sentinel text happens on the read side. -/
def encodeJob (j : Job) : List Cell :=
  [encodeStr j.client_name, encodeStr j.project_name, Cell.num j.rate, Cell.boolean j.paid,
   Cell.timestamp j.deadline, Cell.timestamp j.date_added,
   (match j.hours with | some h => Cell.num h | none => Cell.empty),
   encodeOptStr j.notes]

/-- `to_csv`: the whole collection as rows, header implicit in the fixed
    column order. -/
def toCSV (jobs : List Job) : List (List Cell) := jobs.map encodeJob

/-- In-memory tracker state: the DataFrame plus the backing file's
    contents (`none` when the file does not exist yet). -/
structure TrackerState where
  jobs : List Job
  file : Option (List (List Cell))
deriving DecidableEq, Repr

/-- `save_data`: overwrite the backing file with the whole collection. -/
def save_data (s : TrackerState) : TrackerState :=
  { s with file := some (toCSV s.jobs) }

/-- `add_job`: coerce `rate` and `deadline`, store `hours` only when the
    argument is truthy (`float(hours) if hours else None`), append the new
    row, persist.  Any coercion failure aborts before the append. -/
def add_job (s : TrackerState) (client project : String) (rate deadline hours : PyVal)
    (notes : Option String) (now : Int) : TrackerState × Option TrackerError :=
  match pyFloat rate with
  | none => (s, some .validation)
  | some r =>
    match pyDate deadline with
    | none => (s, some .validation)
    | some dl =>
      if truthy hours then
        match pyFloat hours with
        | none => (s, some .validation)
        | some h =>
          (save_data { s with jobs := s.jobs ++ [⟨client, project, r, false, dl, now, some h, notes⟩] },
           none)
      else
        (save_data { s with jobs := s.jobs ++ [⟨client, project, r, false, dl, now, none, notes⟩] },
         none)

/-- `mark_as_paid`: when some row's `project_name` matches, set
    `paid = True` on every matching row (`.loc[mask, 'paid'] = True`)
    and persist; otherwise report "not found". -/
def mark_as_paid (s : TrackerState) (project : String) : TrackerState × Option TrackerError :=
  if s.jobs.any (fun j => j.project_name == project) then
    (save_data { s with
        jobs := s.jobs.map (fun j =>
          if j.project_name == project then { j with paid := true } else j) },
     none)
  else (s, some .notFound)

/-- One iteration of `edit_job`'s update loop: coerce `v` for column `col`
    (`to_datetime` for `deadline`, `float` for `rate`/`hours`, `bool` for
    `paid`) and assign it to every row whose `project_name` matches
    (`.loc[mask, col] = value`).  `none` models the coercion raising.
    Raw assignment into the `date_added` datetime column goes through the
    same datetime conversion pandas applies. -/
def applyUpdate (jobs : List Job) (project col : String) (v : PyVal) : Option (List Job) :=
  let put : (Job → Job) → List Job := fun f =>
    jobs.map (fun j => if j.project_name == project then f j else j)
  if col == "deadline" then (pyDate v).map (fun t => put (fun j => { j with deadline := t }))
  else if col == "rate" then (pyFloat v).map (fun q => put (fun j => { j with rate := q }))
  else if col == "hours" then (pyFloat v).map (fun q => put (fun j => { j with hours := some q }))
  else if col == "paid" then some (put (fun j => { j with paid := truthy v }))
  else if col == "client_name" then some (put (fun j => { j with client_name := v.asString }))
  else if col == "project_name" then some (put (fun j => { j with project_name := v.asString }))
  else if col == "notes" then some (put (fun j => { j with notes := some v.asString }))
  else if col == "date_added" then (pyDate v).map (fun t => put (fun j => { j with date_added := t }))
  else some jobs

/-- `edit_job`'s `for col, value in valid_updates.items()` loop: updates
    apply one at a time to the live collection; the first coercion failure
    stops the loop, keeping the updates already applied. -/
def edit_loop (jobs : List Job) (project : String) :
    List (String × PyVal) → List Job × Option TrackerError
  | [] => (jobs, none)
  | (col, v) :: rest =>
    match applyUpdate jobs project col v with
    | none => (jobs, some .validation)
    | some jobs' => edit_loop jobs' project rest

/-- `edit_job`: report "not found" when no row matches; drop update keys
    that are not DataFrame columns; a mapping with no valid key is a
    message-only no-op; otherwise run the update loop and persist only
    when every coercion succeeded. -/
def edit_job (s : TrackerState) (project : String) (updates : List (String × PyVal)) :
    TrackerState × Option TrackerError :=
  if s.jobs.any (fun j => j.project_name == project) then
    if (updates.filter (fun kv => columns.contains kv.1)).isEmpty then (s, none)
    else
      match edit_loop s.jobs project (updates.filter (fun kv => columns.contains kv.1)) with
      | (js, none) => (save_data { s with jobs := js }, none)
      | (js, some e) => ({ s with jobs := js }, some e)
  else (s, some .notFound)

/-- `list_jobs`'s row selection: the unpaid filter, then the deadline
    window — note `if upcoming_deadlines:` is a truthiness test, so the
    window filter is skipped when the argument is `None` or `0`. -/
def list_jobs (jobs : List Job) (filter_unpaid : Bool) (upcoming_deadlines : Option Int)
    (now : Int) : List Job :=
  let df := if filter_unpaid then jobs.filter (fun j => j.paid == false) else jobs
  match upcoming_deadlines with
  | none => df
  | some d =>
    if d = 0 then df
    else
      (df.filter (fun j => decide (j.deadline ≤ now + d * 86400))).filter
        (fun j => decide (now ≤ j.deadline))

/-- The derived `estimated_pay` column (`hours * rate`, `NaN` when
    `hours` is absent). -/
def estimatedPay (j : Job) : Option Rat := j.hours.map (fun h => h * j.rate)

/-- A pandas `.sum()` over a column with holes: absent values are
    skipped. -/
def nansum : List (Option Rat) → Rat
  | [] => 0
  | none :: rest => nansum rest
  | some q :: rest => q + nansum rest

/-- `get_stats`'s `total_earnings`: `(paid['hours'] * paid['rate']).sum()`. -/
def total_earnings (jobs : List Job) : Rat :=
  nansum ((jobs.filter (fun j => j.paid)).map estimatedPay)

/-- `get_stats`'s `potential_earnings`: the same sum over the unpaid rows. -/
def potential_earnings (jobs : List Job) : Rat :=
  nansum ((jobs.filter (fun j => !j.paid)).map estimatedPay)

/-- `generate_earnings_chart`'s eligibility filter: paid rows with both
    `hours` and `rate` present (`rate` is always present in the model,
    matching rows built by `add_job`/`edit_job`). -/
def eligible (jobs : List Job) : List Job :=
  jobs.filter (fun j => j.paid && j.hours.isSome)

/-- The `earnings` column of the chart data (`hours` known present). -/
def earningsAmount (j : Job) : Rat := j.hours.getD 0 * j.rate

/-- Insert one `(month, earnings)` observation into a month-sorted
    association list, adding into an existing month's total. -/
def insertMonth (m : Int) (e : Rat) : List (Int × Rat) → List (Int × Rat)
  | [] => [(m, e)]
  | (k, v) :: rest =>
    if m = k then (k, v + e) :: rest
    else if m < k then (m, e) :: (k, v) :: rest
    else (k, v) :: insertMonth m e rest

/-- `groupby('month_year')['earnings'].sum()` with its default sorted
    group keys, built by repeated sorted insertion. -/
def groupbySum : List (Int × Rat) → List (Int × Rat)
  | [] => []
  | p :: rest => insertMonth p.1 p.2 (groupbySum rest)

/-- The data behind `generate_earnings_chart`: month key and summed
    earnings per calendar month of `date_added`, months ascending. -/
def monthlyEarnings (jobs : List Job) : List (Int × Rat) :=
  groupbySum ((eligible jobs).map (fun j => (monthOf j.date_added, earningsAmount j)))

/-- Total of the observations carrying month key `m` in a raw
    `(month, earnings)` list — the specification-level "sum within the
    group of month `m`", used to relate `groupbySum` to its input. -/
def keyAmt (m : Int) (l : List (Int × Rat)) : Rat :=
  ((l.filter (fun q => q.1 == m)).map Prod.snd).sum

/-! ## Helper lemmas -/

theorem filter_comp {α : Type} (p q : α → Bool) (l : List α) :
    (l.filter p).filter q = l.filter (fun a => p a && q a) := by
  induction l with
  | nil => rfl
  | cons a t ih =>
    cases hp : p a <;> cases hq : q a <;>
      simp [List.filter_cons, hp, hq, ih]

theorem nansum_estimatedPay (js : List Job) (p : Job → Bool) :
    nansum ((js.filter p).map estimatedPay) =
      ((js.filter (fun j => p j && j.hours.isSome)).map earningsAmount).sum := by
  induction js with
  | nil => rfl
  | cons j t ih =>
    cases hp : p j
    · simp [List.filter_cons, hp, ih]
    · cases hh : j.hours with
      | none =>
        simp [List.filter_cons, hp, hh, estimatedPay, nansum, ih]
      | some h =>
        simp [List.filter_cons, hp, hh, estimatedPay, nansum, earningsAmount, ih]

/-! ## Claims -/

/-- Claim C2 (confirmed): when the `rate` argument does not coerce with
    `float`, `add_job` aborts with the validation error and returns the
    state exactly as it was — no record appended and no persist. -/
theorem add_job_invalid_rate (s : TrackerState) (c p : String) (rv dlv hv : PyVal)
    (nts : Option String) (now : Int) (hr : pyFloat rv = none) :
    add_job s c p rv dlv hv nts now = (s, some .validation) := by
  simp only [add_job, hr]

/-- Witness for C2 at `rate = "abc"` on a concrete non-trivial state. -/
theorem add_job_invalid_rate_witness :
    pyFloat (.vStr "abc") = none ∧
    add_job ⟨[⟨"a", "p", 1, false, 0, 0, none, none⟩], none⟩ "c" "q" (.vStr "abc")
        (.vStr "2025-06-01") .vNone none 0 =
      (⟨[⟨"a", "p", 1, false, 0, 0, none, none⟩], none⟩, some .validation) :=
  ⟨by decide,
   add_job_invalid_rate ⟨[⟨"a", "p", 1, false, 0, 0, none, none⟩], none⟩ "c" "q"
     (.vStr "abc") (.vStr "2025-06-01") .vNone none 0 (by decide)⟩

/-- Claim C7 (confirmed): `get_stats`'s `total_earnings` is the sum of
    `hours * rate` over exactly the paid records whose `hours` is present,
    and `potential_earnings` is the same sum over the unpaid records; a
    record with absent `hours` is skipped by the NaN-skipping sum, never
    an error (both sums are total functions). -/
theorem stats_earnings_sums (jobs : List Job) :
    total_earnings jobs =
      ((jobs.filter (fun j => j.paid && j.hours.isSome)).map earningsAmount).sum ∧
    potential_earnings jobs =
      ((jobs.filter (fun j => !j.paid && j.hours.isSome)).map earningsAmount).sum :=
  ⟨nansum_estimatedPay jobs (fun j => j.paid),
   nansum_estimatedPay jobs (fun j => !j.paid)⟩

/-- Claim C1 (corrected, amended): when any record's `project_name`
    matches, `mark_as_paid` sets `paid = true` on **every** matching
    record (the pandas masked assignment touches all matching rows), keeps
    all other records and the order intact, and persists; when no record
    matches it reports the not-found error and performs no mutation. -/
theorem mark_as_paid_matching_rows (s : TrackerState) (p : String) :
    ((∃ j ∈ s.jobs, j.project_name = p) →
      (mark_as_paid s p).2 = none ∧
      (mark_as_paid s p).1.file = some (toCSV (mark_as_paid s p).1.jobs) ∧
      (mark_as_paid s p).1.jobs.length = s.jobs.length ∧
      ∀ i (hi : i < s.jobs.length) (hi' : i < (mark_as_paid s p).1.jobs.length),
        (mark_as_paid s p).1.jobs.get ⟨i, hi'⟩ =
          (if (s.jobs.get ⟨i, hi⟩).project_name = p
           then { s.jobs.get ⟨i, hi⟩ with paid := true }
           else s.jobs.get ⟨i, hi⟩)) ∧
    ((∀ j ∈ s.jobs, j.project_name ≠ p) → mark_as_paid s p = (s, some .notFound)) := by
  constructor
  · intro hex
    have hany : s.jobs.any (fun j => j.project_name == p) = true := by
      rw [List.any_eq_true]
      obtain ⟨j, hj, hpj⟩ := hex
      exact ⟨j, hj, by simp [hpj]⟩
    have hres : mark_as_paid s p =
        (save_data { s with jobs := s.jobs.map (fun j =>
          if j.project_name == p then { j with paid := true } else j) }, none) := by
      simp only [mark_as_paid, hany, if_true]
    rw [hres]
    refine ⟨rfl, rfl, by simp [save_data], ?_⟩
    intro i hi hi'
    simp only [save_data, List.get_eq_getElem, List.getElem_map]
    by_cases hc : (s.jobs[i]).project_name = p <;> simp [hc]
  · intro hall
    have hany : s.jobs.any (fun j => j.project_name == p) = false := by
      rw [List.any_eq_false]
      intro j hj
      simp [hall j hj]
    simp [mark_as_paid, hany]

/-- Witness for C1's amended theorem: both the found branch (duplicate
    project names) and the not-found branch at concrete states. -/
theorem mark_as_paid_matching_rows_witness :
    ((∃ j ∈ (⟨[⟨"a", "p", 1, false, 0, 0, none, none⟩], none⟩ : TrackerState).jobs,
        j.project_name = "p") ∧
      (mark_as_paid ⟨[⟨"a", "p", 1, false, 0, 0, none, none⟩], none⟩ "p").2 = none) ∧
    ((∀ j ∈ (⟨[⟨"a", "p", 1, false, 0, 0, none, none⟩], none⟩ : TrackerState).jobs,
        j.project_name ≠ "q") ∧
      mark_as_paid ⟨[⟨"a", "p", 1, false, 0, 0, none, none⟩], none⟩ "q" =
        (⟨[⟨"a", "p", 1, false, 0, 0, none, none⟩], none⟩, some .notFound)) :=
  ⟨⟨by decide,
    ((mark_as_paid_matching_rows ⟨[⟨"a", "p", 1, false, 0, 0, none, none⟩], none⟩ "p").1
      (by decide)).1⟩,
   ⟨by decide,
    (mark_as_paid_matching_rows ⟨[⟨"a", "p", 1, false, 0, 0, none, none⟩], none⟩ "q").2
      (by decide)⟩⟩

/-- Counterexample to C1 as stated: with two records sharing
    `project_name = "p"`, `mark_as_paid` sets `paid = true` on the second
    matching record as well, not on the first matching record only. -/
theorem mark_as_paid_first_only_cex :
    ((mark_as_paid ⟨[⟨"a", "p", 1, false, 0, 0, none, none⟩,
                     ⟨"b", "p", 2, false, 0, 0, none, none⟩], none⟩ "p").1.jobs.map
        (fun j => j.paid)) = [true, true] ∧
    (mark_as_paid ⟨[⟨"a", "p", 1, false, 0, 0, none, none⟩,
                    ⟨"b", "p", 2, false, 0, 0, none, none⟩], none⟩ "p").2 = none := by
  decide

/-- Claim C4 (corrected, amended): for every nonzero window `d`,
    `list_jobs` retains exactly the records whose deadline lies in the
    inclusive interval `[now, now + d days]`, the unpaid filter composes
    by conjunction, and the result is a single order-preserving filter
    pass over the stored collection; for `d = 0` the Python truthiness
    test skips the window filter entirely, leaving the `d = None`
    behaviour. -/
theorem list_jobs_window_spec (jobs : List Job) (fu : Bool) (d now : Int) :
    (d ≠ 0 →
      list_jobs jobs fu (some d) now =
        jobs.filter (fun j =>
          (!fu || !j.paid) &&
            (decide (now ≤ j.deadline) && decide (j.deadline ≤ now + d * 86400)))) ∧
    list_jobs jobs fu (some 0) now = list_jobs jobs fu none now := by
  constructor
  · intro hd
    simp only [list_jobs, if_neg hd]
    cases fu
    · simp only [Bool.false_eq_true, if_false]
      rw [filter_comp]
      refine List.filter_congr ?_
      intro j hj
      cases hB : decide (now ≤ j.deadline) <;>
        cases hC : decide (j.deadline ≤ now + d * 86400) <;>
          simp [hB, hC]
    · simp only [if_true]
      rw [filter_comp, filter_comp]
      refine List.filter_congr ?_
      intro j hj
      cases hpj : j.paid <;>
        cases hB : decide (now ≤ j.deadline) <;>
          cases hC : decide (j.deadline ≤ now + d * 86400) <;>
            simp [hpj, hB, hC]
  · simp [list_jobs]

/-- Witness for C4's amended theorem at `d = 7` on a concrete collection
    with one deadline inside and one outside the window. -/
theorem list_jobs_window_spec_witness :
    ((7 : Int) ≠ 0) ∧
    list_jobs [⟨"n", "pn", 1, false, 86400 * 3, 0, none, none⟩,
               ⟨"f", "pf", 1, false, 86400 * 30, 0, none, none⟩] false (some 7) 0 =
      [⟨"n", "pn", 1, false, 86400 * 3, 0, none, none⟩,
       ⟨"f", "pf", 1, false, 86400 * 30, 0, none, none⟩].filter (fun j =>
        (!false || !j.paid) &&
          (decide ((0 : Int) ≤ j.deadline) && decide (j.deadline ≤ 0 + 7 * 86400))) :=
  ⟨by decide,
   (list_jobs_window_spec [⟨"n", "pn", 1, false, 86400 * 3, 0, none, none⟩,
      ⟨"f", "pf", 1, false, 86400 * 30, 0, none, none⟩] false 7 0).1 (by decide)⟩

/-- Counterexample to C4 as stated: with `d = 0` a record whose deadline
    is far outside `[now, now + 0 days]` is still returned, because
    `if upcoming_deadlines:` is falsy at `0` and skips the filter. -/
theorem list_jobs_zero_window_cex :
    list_jobs [⟨"f", "pf", 1, false, 86400 * 30, 0, none, none⟩] false (some 0) 0 =
      [⟨"f", "pf", 1, false, 86400 * 30, 0, none, none⟩] ∧
    ¬((⟨"f", "pf", 1, false, 86400 * 30, 0, none, none⟩ : Job).deadline ≤ 0 + 0 * 86400) := by
  decide

/-- Claim C9 (corrected, amended): `add_job` and `edit_job` coerce `rate`
    and `hours` with a plain `float` conversion and perform no sign
    check — any parsed value, negative included, is accepted and stored
    for both fields, on both the add path and the edit path, so
    non-negativity of `rate`/`hours` is not an invariant the code
    enforces. -/
theorem add_edit_accept_any_rate (s : TrackerState) (c p p' : String) (q h : Rat)
    (dlv : PyVal) (nts : Option String) (t now : Int)
    (hdl : pyDate dlv = some t) (hh : h ≠ 0) :
    add_job s c p (.vNum q) dlv (.vNum h) nts now =
      (save_data { s with jobs := s.jobs ++ [⟨c, p, q, false, t, now, some h, nts⟩] }, none) ∧
    (s.jobs.any (fun j => j.project_name == p') = true →
      ((edit_job s p' [("rate", .vNum q)]).2 = none ∧
        (edit_job s p' [("rate", .vNum q)]).1.jobs =
          s.jobs.map (fun j => if j.project_name == p' then { j with rate := q } else j)) ∧
      ((edit_job s p' [("hours", .vNum h)]).2 = none ∧
        (edit_job s p' [("hours", .vNum h)]).1.jobs =
          s.jobs.map (fun j =>
            if j.project_name == p' then { j with hours := some h } else j))) := by
  constructor
  · have hr : pyFloat (.vNum q) = some q := rfl
    have htr : truthy (.vNum h) = true := by
      simp [truthy, hh]
    have hhf : pyFloat (.vNum h) = some h := rfl
    simp only [add_job, hr, hdl, htr, hhf]
    simp
  · intro hany
    constructor
    · have hfilter : ([("rate", PyVal.vNum q)].filter (fun kv => columns.contains kv.1))
          = [("rate", PyVal.vNum q)] := rfl
      have happ : applyUpdate s.jobs p' "rate" (.vNum q)
          = some (s.jobs.map (fun j =>
              if j.project_name == p' then { j with rate := q } else j)) := rfl
      have hloop : edit_loop s.jobs p' [("rate", PyVal.vNum q)]
          = (s.jobs.map (fun j =>
              if j.project_name == p' then { j with rate := q } else j), none) := by
        simp only [edit_loop, happ]
      simp only [edit_job, hany, if_true, hfilter, List.isEmpty_cons, hloop]
      exact ⟨rfl, rfl⟩
    · have hfilter : ([("hours", PyVal.vNum h)].filter (fun kv => columns.contains kv.1))
          = [("hours", PyVal.vNum h)] := rfl
      have happ : applyUpdate s.jobs p' "hours" (.vNum h)
          = some (s.jobs.map (fun j =>
              if j.project_name == p' then { j with hours := some h } else j)) := rfl
      have hloop : edit_loop s.jobs p' [("hours", PyVal.vNum h)]
          = (s.jobs.map (fun j =>
              if j.project_name == p' then { j with hours := some h } else j), none) := by
        simp only [edit_loop, happ]
      simp only [edit_job, hany, if_true, hfilter, List.isEmpty_cons, hloop]
      exact ⟨rfl, rfl⟩

/-- Witness for C9's amended theorem at rate `-5` and hours `-3`, on the
    add path and on both edit paths. -/
theorem add_edit_accept_any_rate_witness :
    (pyDate (.vStr "2025-06-01") = some 1748736000 ∧ ((-3 : Rat) ≠ 0) ∧
      ((⟨[⟨"a", "p", 1, false, 0, 0, none, none⟩], none⟩ : TrackerState).jobs.any
        (fun j => j.project_name == "p") = true)) ∧
    add_job ⟨[⟨"a", "p", 1, false, 0, 0, none, none⟩], none⟩ "c" "q" (.vNum (-5))
        (.vStr "2025-06-01") (.vNum (-3)) none 0 =
      (save_data { jobs := [⟨"a", "p", 1, false, 0, 0, none, none⟩,
                            ⟨"c", "q", -5, false, 1748736000, 0, some (-3), none⟩],
                   file := none }, none) ∧
    (edit_job ⟨[⟨"a", "p", 1, false, 0, 0, none, none⟩], none⟩ "p"
        [("rate", .vNum (-5))]).1.jobs =
      [⟨"a", "p", -5, false, 0, 0, none, none⟩] ∧
    (edit_job ⟨[⟨"a", "p", 1, false, 0, 0, none, none⟩], none⟩ "p"
        [("hours", .vNum (-3))]).1.jobs =
      [⟨"a", "p", 1, false, 0, 0, some (-3), none⟩] := by
  refine ⟨⟨by decide, by decide, by decide⟩, ?_, ?_, ?_⟩
  · exact (add_edit_accept_any_rate ⟨[⟨"a", "p", 1, false, 0, 0, none, none⟩], none⟩
      "c" "q" "x" (-5) (-3) (.vStr "2025-06-01") none 1748736000 0
      (by decide) (by decide)).1
  · have hcl := (((add_edit_accept_any_rate ⟨[⟨"a", "p", 1, false, 0, 0, none, none⟩], none⟩
      "c" "q" "p" (-5) (-3) (.vStr "2025-06-01") none 1748736000 0
      (by decide) (by decide)).2 (by decide)).1).2
    rw [hcl]
    decide
  · have hcl := (((add_edit_accept_any_rate ⟨[⟨"a", "p", 1, false, 0, 0, none, none⟩], none⟩
      "c" "q" "p" (-5) (-3) (.vStr "2025-06-01") none 1748736000 0
      (by decide) (by decide)).2 (by decide)).2).2
    rw [hcl]
    decide

/-- Counterexample to C9 as stated: adding with `rate = "-5"` and
    `hours = "-3"` succeeds — nothing is rejected — and stores both the
    negative rate and the negative hours in the collection. -/
theorem add_job_negative_rate_cex :
    (add_job ⟨[], none⟩ "c" "p" (.vStr "-5") (.vStr "2025-06-01") (.vStr "-3") none 0).2
      = none ∧
    ((add_job ⟨[], none⟩ "c" "p" (.vStr "-5") (.vStr "2025-06-01") (.vStr "-3") none 0).1.jobs.map
        (fun j => (j.rate, j.hours))) = [((-5 : Rat), some (-3 : Rat))] ∧
    ¬((0 : Rat) ≤ -5) ∧ ¬((0 : Rat) ≤ -3) := by
  decide

/-- Claim C10 (confirmed): a falsy `hours` argument — numeric `0` or the
    empty string in particular — is stored as absent
    (`float(hours) if hours else None`), so the record's `hours * rate`
    is absent and is skipped by the earnings sums rather than counted as
    zero hours. -/
theorem add_job_falsy_hours (s : TrackerState) (c p : String) (rv dlv hv : PyVal)
    (nts : Option String) (r : Rat) (t now : Int)
    (hr : pyFloat rv = some r) (hdl : pyDate dlv = some t) (hfal : truthy hv = false) :
    add_job s c p rv dlv hv nts now =
      (save_data { s with jobs := s.jobs ++ [⟨c, p, r, false, t, now, none, nts⟩] }, none) ∧
    estimatedPay ⟨c, p, r, false, t, now, none, nts⟩ = none ∧
    truthy (.vNum 0) = false ∧ truthy (.vStr "") = false := by
  refine ⟨?_, rfl, rfl, rfl⟩
  simp only [add_job, hr, hdl, hfal]
  simp

/-- Witness for C10 at `hours = 0` (numeric zero) on a concrete add. -/
theorem add_job_falsy_hours_witness :
    (pyFloat (.vStr "50") = some 50 ∧ pyDate (.vStr "2025-06-01") = some 1748736000 ∧
      truthy (.vNum 0) = false) ∧
    add_job ⟨[], none⟩ "c" "p" (.vStr "50") (.vStr "2025-06-01") (.vNum 0) none 0 =
      (save_data { jobs := [⟨"c", "p", 50, false, 1748736000, 0, none, none⟩],
                   file := none }, none) :=
  ⟨⟨by decide, by decide, by decide⟩,
   (add_job_falsy_hours ⟨[], none⟩ "c" "p" (.vStr "50") (.vStr "2025-06-01") (.vNum 0)
      none 50 1748736000 0 (by decide) (by decide) (by decide)).1⟩

/-- Claim C3 (corrected, amended): when some provided field value fails
    coercion, `edit_job` stops with the validation error and does not
    persist — the backing file is left untouched — but fields earlier in
    the update mapping have already been applied to the in-memory record,
    so the matched record is not necessarily left entirely unchanged. -/
theorem edit_job_validation_no_persist (s : TrackerState) (p : String)
    (updates : List (String × PyVal))
    (h : (edit_job s p updates).2 = some .validation) :
    (edit_job s p updates).1.file = s.file := by
  by_cases hany : s.jobs.any (fun j => j.project_name == p) = true
  · by_cases hemp : (updates.filter (fun kv => columns.contains kv.1)).isEmpty = true
    · have hres : edit_job s p updates = (s, none) := by
        unfold edit_job
        rw [if_pos hany, if_pos hemp]
      rw [hres] at h
      simp at h
    · rcases hloop : edit_loop s.jobs p (updates.filter (fun kv => columns.contains kv.1))
        with ⟨js, e⟩
      cases e with
      | none =>
        have hres : edit_job s p updates = (save_data { s with jobs := js }, none) := by
          unfold edit_job
          rw [if_pos hany, if_neg hemp, hloop]
        rw [hres] at h
        simp at h
      | some err =>
        have hres : edit_job s p updates = ({ s with jobs := js }, some err) := by
          unfold edit_job
          rw [if_pos hany, if_neg hemp, hloop]
        rw [hres]
  · have hres : edit_job s p updates = (s, some .notFound) := by
      unfold edit_job
      rw [if_neg hany]
    rw [hres] at h
    simp at h

/-- Witness for C3's amended theorem: an edit whose second field fails
    `float` coercion ends in the validation error and the file (here still
    absent) is not written. -/
theorem edit_job_validation_no_persist_witness :
    ((edit_job ⟨[⟨"A", "p", 10, false, 0, 0, none, none⟩], none⟩ "p"
        [("client_name", .vStr "B"), ("rate", .vStr "abc")]).2 = some .validation) ∧
    (edit_job ⟨[⟨"A", "p", 10, false, 0, 0, none, none⟩], none⟩ "p"
        [("client_name", .vStr "B"), ("rate", .vStr "abc")]).1.file = none :=
  ⟨by decide,
   edit_job_validation_no_persist ⟨[⟨"A", "p", 10, false, 0, 0, none, none⟩], none⟩ "p"
     [("client_name", .vStr "B"), ("rate", .vStr "abc")] (by decide)⟩

/-- Counterexample to C3 as stated: the same failing edit has already
    applied the earlier `client_name` update to the in-memory record —
    mutation is partial, not absent. -/
theorem edit_job_partial_mutation_cex :
    (edit_job ⟨[⟨"A", "p", 10, false, 0, 0, none, none⟩], none⟩ "p"
        [("client_name", .vStr "B"), ("rate", .vStr "abc")]).2 = some .validation ∧
    ((edit_job ⟨[⟨"A", "p", 10, false, 0, 0, none, none⟩], none⟩ "p"
        [("client_name", .vStr "B"), ("rate", .vStr "abc")]).1.jobs.map
        (fun j => j.client_name)) = ["B"] := by
  decide

/-- Claim C8 (confirmed): `edit_job` pre-filters the update mapping to
    the DataFrame's column set, so any unknown key is silently ignored,
    and addressing an existing record with a mapping of only unknown keys
    is a no-op that raises nothing. -/
theorem edit_job_unknown_keys (s : TrackerState) (p : String)
    (updates : List (String × PyVal)) :
    edit_job s p updates = edit_job s p (updates.filter (fun kv => columns.contains kv.1)) ∧
    (s.jobs.any (fun j => j.project_name == p) = true →
      (∀ kv ∈ updates, columns.contains kv.1 = false) →
      edit_job s p updates = (s, none)) := by
  have hff : ((updates.filter (fun kv => columns.contains kv.1)).filter
      (fun kv => columns.contains kv.1)) = updates.filter (fun kv => columns.contains kv.1) := by
    rw [filter_comp]
    refine List.filter_congr ?_
    intro kv _
    cases hc : columns.contains kv.1 <;> simp [hc]
  constructor
  · simp only [edit_job, hff]
  · intro hany hunk
    have hnil : updates.filter (fun kv => columns.contains kv.1) = [] := by
      rw [List.filter_eq_nil_iff]
      intro kv hkv
      simpa using hunk kv hkv
    have hemp : (updates.filter (fun kv => columns.contains kv.1)).isEmpty = true := by
      rw [hnil]
      rfl
    unfold edit_job
    rw [if_pos hany, if_pos hemp]

/-- Witness for C8 at a concrete state and an update mapping holding only
    the unknown key `"bogus"`. -/
theorem edit_job_unknown_keys_witness :
    ((⟨[⟨"a", "p", 1, false, 0, 0, none, none⟩], none⟩ : TrackerState).jobs.any
        (fun j => j.project_name == "p") = true) ∧
    edit_job ⟨[⟨"a", "p", 1, false, 0, 0, none, none⟩], none⟩ "p"
        [("bogus", .vStr "x")] =
      (⟨[⟨"a", "p", 1, false, 0, 0, none, none⟩], none⟩, none) :=
  ⟨by decide,
   (edit_job_unknown_keys ⟨[⟨"a", "p", 1, false, 0, 0, none, none⟩], none⟩ "p"
      [("bogus", .vStr "x")]).2 (by decide) (by decide)⟩

theorem keyAmt_cons (a : Int) (c : Rat) (t : List (Int × Rat)) (x : Int) :
    keyAmt x ((a, c) :: t) = (if a = x then c else 0) + keyAmt x t := by
  by_cases h : a = x <;> simp [keyAmt, List.filter_cons, h]

theorem keyAmt_insertMonth (k : Int) (e : Rat) (x : Int) (l : List (Int × Rat)) :
    keyAmt x (insertMonth k e l) = keyAmt x l + (if k = x then e else 0) := by
  induction l with
  | nil =>
    by_cases hkx : k = x <;> simp [insertMonth, keyAmt_cons, keyAmt, hkx]
  | cons hd tl ih =>
    rcases hd with ⟨a, b⟩
    simp only [insertMonth]
    by_cases hka : k = a
    · subst hka
      rw [if_pos rfl, keyAmt_cons, keyAmt_cons]
      by_cases hx : k = x
      · simp [hx]
        ring
      · simp [hx]
    · rw [if_neg hka]
      by_cases hlt : k < a
      · rw [if_pos hlt, keyAmt_cons, keyAmt_cons]
        ring
      · rw [if_neg hlt, keyAmt_cons, keyAmt_cons, ih]
        ring

theorem mem_keys_insertMonth (k : Int) (e : Rat) (l : List (Int × Rat)) (x : Int) :
    x ∈ (insertMonth k e l).map Prod.fst ↔ x = k ∨ x ∈ l.map Prod.fst := by
  induction l with
  | nil => simp [insertMonth]
  | cons hd tl ih =>
    rcases hd with ⟨a, b⟩
    simp only [insertMonth]
    by_cases hka : k = a
    · rw [if_pos hka]
      simp only [List.map_cons, List.mem_cons]
      rw [hka]
      tauto
    · rw [if_neg hka]
      by_cases hlt : k < a
      · rw [if_pos hlt]
        simp only [List.map_cons, List.mem_cons]
      · rw [if_neg hlt]
        simp only [List.map_cons, List.mem_cons, ih]
        tauto

theorem pairwise_insertMonth (k : Int) (e : Rat) (l : List (Int × Rat))
    (h : l.Pairwise (fun a b => a.1 < b.1)) :
    (insertMonth k e l).Pairwise (fun a b => a.1 < b.1) := by
  induction l with
  | nil => simp [insertMonth]
  | cons hd tl ih =>
    rcases hd with ⟨a, b⟩
    rw [List.pairwise_cons] at h
    obtain ⟨ha, htl⟩ := h
    simp only [insertMonth]
    by_cases hka : k = a
    · subst hka
      rw [if_pos rfl, List.pairwise_cons]
      exact ⟨ha, htl⟩
    · rw [if_neg hka]
      by_cases hlt : k < a
      · rw [if_pos hlt, List.pairwise_cons]
        refine ⟨?_, List.pairwise_cons.mpr ⟨ha, htl⟩⟩
        intro q hq
        rcases List.mem_cons.mp hq with hqa | hqtl
        · rw [hqa]
          exact hlt
        · exact lt_trans hlt (ha q hqtl)
      · rw [if_neg hlt, List.pairwise_cons]
        have hak : a < k := lt_of_le_of_ne (not_lt.mp hlt) (fun hh => hka hh.symm)
        refine ⟨?_, ih htl⟩
        intro q hq
        have hq1 : q.1 = k ∨ q.1 ∈ tl.map Prod.fst :=
          (mem_keys_insertMonth k e tl q.1).mp (List.mem_map_of_mem Prod.fst hq)
        rcases hq1 with h1 | h1
        · rw [h1]
          exact hak
        · rcases List.mem_map.mp h1 with ⟨r, hr, hr1⟩
          rw [← hr1]
          exact ha r hr

theorem keyAmt_groupbySum (l : List (Int × Rat)) (x : Int) :
    keyAmt x (groupbySum l) = keyAmt x l := by
  induction l with
  | nil => rfl
  | cons p t ih =>
    rcases p with ⟨a, b⟩
    simp only [groupbySum]
    rw [keyAmt_insertMonth, ih, keyAmt_cons]
    ring

theorem mem_keys_groupbySum (l : List (Int × Rat)) (x : Int) :
    x ∈ (groupbySum l).map Prod.fst ↔ x ∈ l.map Prod.fst := by
  induction l with
  | nil => simp [groupbySum]
  | cons p t ih =>
    rcases p with ⟨a, b⟩
    simp only [groupbySum, List.map_cons, List.mem_cons]
    rw [mem_keys_insertMonth, ih]

theorem pairwise_groupbySum (l : List (Int × Rat)) :
    (groupbySum l).Pairwise (fun a b => a.1 < b.1) := by
  induction l with
  | nil => simp [groupbySum]
  | cons p t ih => exact pairwise_insertMonth p.1 p.2 (groupbySum t) ih

theorem keyAmt_eq_zero_of_not_mem (l : List (Int × Rat)) (x : Int)
    (h : x ∉ l.map Prod.fst) : keyAmt x l = 0 := by
  induction l with
  | nil => rfl
  | cons p t ih =>
    rcases p with ⟨a, b⟩
    simp only [List.map_cons, List.mem_cons] at h
    push_neg at h
    rw [keyAmt_cons, if_neg (fun hh => h.1 hh.symm), ih h.2]
    simp

theorem mem_sorted_val (m : Int) (e : Rat) :
    ∀ l : List (Int × Rat), l.Pairwise (fun a b => a.1 < b.1) → (m, e) ∈ l →
      e = keyAmt m l := by
  intro l
  induction l with
  | nil =>
    intro _ hme
    cases hme
  | cons p t ih =>
    intro h hme
    rcases p with ⟨a, b⟩
    rw [List.pairwise_cons] at h
    rcases List.mem_cons.mp hme with heq | hmem
    · have hm : m = a := congrArg Prod.fst heq
      have he : e = b := congrArg Prod.snd heq
      subst hm
      subst he
      have hnm : m ∉ t.map Prod.fst := by
        intro hmem2
        rcases List.mem_map.mp hmem2 with ⟨r, hr, hr1⟩
        have hlt := h.1 r hr
        rw [hr1] at hlt
        exact lt_irrefl m hlt
      rw [keyAmt_cons, if_pos rfl, keyAmt_eq_zero_of_not_mem t m hnm]
      simp
    · have hnam : a ≠ m := ne_of_lt (h.1 (m, e) hmem)
      rw [keyAmt_cons, if_neg hnam, ih h.2 hmem]
      simp

theorem keyAmt_map_jobs (js : List Job) (m : Int) :
    keyAmt m (js.map (fun j => (monthOf j.date_added, earningsAmount j))) =
      ((js.filter (fun j => monthOf j.date_added == m)).map earningsAmount).sum := by
  induction js with
  | nil => rfl
  | cons j t ih =>
    by_cases hm : monthOf j.date_added = m
    · simp [keyAmt_cons, List.filter_cons, hm, ih]
    · simp [keyAmt_cons, List.filter_cons, hm, ih]

/-- Claim C6 (confirmed): `generate_earnings_chart`'s data restricts to
    the paid records with `hours` (and `rate`) present, groups them by the
    calendar month of `date_added`, sums `hours * rate` within each month,
    yields exactly one entry per distinct month present (strictly
    increasing month keys, i.e. chronological order), and an empty
    collection yields an empty sequence. -/
theorem monthlyEarnings_spec (jobs : List Job) :
    (monthlyEarnings jobs).Pairwise (fun a b => a.1 < b.1) ∧
    (∀ x : Int, x ∈ (monthlyEarnings jobs).map Prod.fst ↔
      x ∈ (eligible jobs).map (fun j => monthOf j.date_added)) ∧
    (∀ m e, (m, e) ∈ monthlyEarnings jobs →
      e = (((eligible jobs).filter (fun j => monthOf j.date_added == m)).map
            earningsAmount).sum) ∧
    monthlyEarnings [] = [] := by
  refine ⟨?_, ?_, ?_, rfl⟩
  · simp only [monthlyEarnings]
    exact pairwise_groupbySum _
  · intro x
    simp only [monthlyEarnings]
    rw [mem_keys_groupbySum, List.map_map]
    exact Iff.rfl
  · intro m e hme
    simp only [monthlyEarnings] at hme
    have hs := mem_sorted_val m e _ (pairwise_groupbySum _) hme
    rw [keyAmt_groupbySum, keyAmt_map_jobs] at hs
    exact hs

/-- Witness for C6: two paid records added in the same calendar month
    (January 1970) with hours 5 and 3 at rate 20 produce the single entry
    `(month 23640, 160)`, matching the grouped sum. -/
theorem monthlyEarnings_spec_witness :
    ((23640, (160 : Rat)) ∈ monthlyEarnings
      [⟨"a", "p1", 20, true, 0, 0, some 5, none⟩,
       ⟨"b", "p2", 20, true, 0, 864000, some 3, none⟩]) ∧
    (160 : Rat) = (((eligible
      [⟨"a", "p1", 20, true, 0, 0, some 5, none⟩,
       ⟨"b", "p2", 20, true, 0, 864000, some 3, none⟩]).filter
        (fun j => monthOf j.date_added == 23640)).map earningsAmount).sum := by
  have hmem : (23640, (160 : Rat)) ∈ monthlyEarnings
      [⟨"a", "p1", 20, true, 0, 0, some 5, none⟩,
       ⟨"b", "p2", 20, true, 0, 864000, some 3, none⟩] := by
    have h1 : monthOf 0 = 23640 := by decide
    have h2 : monthOf 864000 = 23640 := by decide
    simp only [monthlyEarnings, eligible, List.filter, earningsAmount, groupbySum,
      insertMonth, h1, h2, List.map_cons, List.map_nil]
    norm_num
  exact ⟨hmem,
    (monthlyEarnings_spec
      [⟨"a", "p1", 20, true, 0, 0, some 5, none⟩,
       ⟨"b", "p2", 20, true, 0, 864000, some 3, none⟩]).2.2.1 23640 160 hmem⟩
